import Mathlib

/-!
Verification development for the arXiv paper-feed aggregation pipeline
(app.js).  The JavaScript source is shallowly embedded: pure string
manipulation is translated to structural functions on `List Char`,
DOM extraction and the network are abstracted as explicit inputs
(lists of extracted items, outcome environments), and the stateful
aggregation step becomes a pure state-transition function.
-/

namespace RssAi

/-! ## Text utilities (app.js `cleanText`, `extractArxivId`, helpers) -/

/-- JavaScript regex `\s` character class (ASCII part, as exercised here). -/
def isJsWs (c : Char) : Bool :=
  c = ' ' || c = '\t' || c = '\n' || c = '\r' || c = '\x0b' || c = '\x0c'

/-- Global removal of `<[^>]*>` matches: a `<` opens a tag that runs to the
first following `>`; a `<` with no later `>` is left verbatim (the regex
does not match there).  The second argument buffers a pending open tag
(chars in reverse) so the scan is one structural pass. -/
def removeTagsAux : List Char → Option (List Char) → List Char
  | [], none => []
  | [], some buf => buf.reverse
  | c :: cs, none =>
    if c = '<' then removeTagsAux cs (some [c]) else c :: removeTagsAux cs none
  | c :: cs, some buf =>
    if c = '>' then removeTagsAux cs none else removeTagsAux cs (some (c :: buf))

def removeTags (l : List Char) : List Char := removeTagsAux l none

/-- Global replacement of `&lt;` by `<` (left-to-right, no rescan). -/
def decodeLt : List Char → List Char
  | '&' :: 'l' :: 't' :: ';' :: rest => '<' :: decodeLt rest
  | c :: rest => c :: decodeLt rest
  | [] => []

/-- Global replacement of `&gt;` by `>`. -/
def decodeGt : List Char → List Char
  | '&' :: 'g' :: 't' :: ';' :: rest => '>' :: decodeGt rest
  | c :: rest => c :: decodeGt rest
  | [] => []

/-- Global replacement of `&amp;` by `&`. -/
def decodeAmp : List Char → List Char
  | '&' :: 'a' :: 'm' :: 'p' :: ';' :: rest => '&' :: decodeAmp rest
  | c :: rest => c :: decodeAmp rest
  | [] => []

/-- Global replacement of `\s+` runs by a single space.  The flag records
whether the previous character was whitespace (already emitted as one
space). -/
def collapseWsAux : Bool → List Char → List Char
  | _, [] => []
  | prevWs, c :: cs =>
    if isJsWs c then
      if prevWs then collapseWsAux true cs else ' ' :: collapseWsAux true cs
    else c :: collapseWsAux false cs

def collapseWs (l : List Char) : List Char := collapseWsAux false l

/-- `String.prototype.trim`: strip leading and trailing whitespace. -/
def trimWs (l : List Char) : List Char :=
  ((l.dropWhile isJsWs).reverse.dropWhile isJsWs).reverse

/-- app.js `cleanText`: strip tags, decode the three entities in source
order, collapse whitespace, trim. -/
def cleanText (s : String) : String :=
  (trimWs (collapseWs (decodeAmp (decodeGt (decodeLt (removeTags s.data)))))).asString

/-- First match of `abs\/([^\?]+)`: find the first position where `abs/`
occurs followed by at least one non-`?` character, and capture the maximal
run of non-`?` characters after it.  When `[^\?]+` cannot match right
after an `abs/`, the regex engine resumes the scan one character later. -/
def extractAbsId : List Char → Option (List Char)
  | 'a' :: 'b' :: 's' :: '/' :: rest =>
    let cap := rest.takeWhile (fun c => c ≠ '?')
    if cap.isEmpty then extractAbsId ('b' :: 's' :: '/' :: rest) else some cap
  | _ :: rest => extractAbsId rest
  | [] => none

/-- app.js `extractArxivId`: the regex capture, else the empty string. -/
def extractArxivId (link : String) : String :=
  match extractAbsId link.data with
  | some cap => cap.asString
  | none => ""

/-- `id.split('/').pop()`: the segment after the last `/` (the whole
string when there is no `/`). -/
def lastSeg (s : String) : String :=
  ((s.data.reverse.takeWhile (fun c => c ≠ '/')).reverse).asString

/-- `s.replace('http://', 'https://')` — a string (non-regex) pattern in
JavaScript replaces only the first occurrence. -/
def httpToHttpsAux : List Char → List Char
  | 'h' :: 't' :: 't' :: 'p' :: ':' :: '/' :: '/' :: rest =>
    'h' :: 't' :: 't' :: 'p' :: 's' :: ':' :: '/' :: '/' :: rest
  | c :: cs => c :: httpToHttpsAux cs
  | [] => []

def httpToHttps (s : String) : String := (httpToHttpsAux s.data).asString

/-- First match of `^\([^)]+\)\s*` removed: a leading parenthesized tag
with at least one non-`)` character inside, plus trailing whitespace. -/
def stripCatTagAux : List Char → List Char
  | '(' :: c :: cs =>
    if c = ')' then '(' :: c :: cs
    else
      match (c :: cs).dropWhile (fun d => d ≠ ')') with
      | _ :: rest => rest.dropWhile isJsWs
      | [] => '(' :: c :: cs
  | l => l

/-- app.js: `title.replace(/^\([^)]+\)\s*/, '')`. -/
def stripCatTag (s : String) : String := (stripCatTagAux s.data).asString

/-- JavaScript `a || b` on strings: the empty string is falsy. -/
def jsOr (a b : String) : String := if a = "" then b else a

/-! ## Data model -/

/-- The canonical paper record pushed by both parsers. -/
structure Paper where
  id : String
  title : String
  link : String
  abstract : String
  authors : String
  category : String
  fetchedAt : String
deriving DecidableEq, Repr

/-- One `<item>` of an RSS document after DOM extraction: each field is
the `textContent` of the corresponding child, with the source's `|| ''`
already applied (absent element and empty text both give `""`).
`creator` is the plain `creator` lookup, `creatorNS` the namespaced
`dc:creator` fallback. -/
structure FeedItem where
  title : String
  link : String
  description : String
  creator : String
  creatorNS : String
deriving DecidableEq, Repr

/-- One `<entry>` of an arXiv API Atom document after DOM extraction.
`authorNames` lists the `author name` text contents in document order;
`pdfHref` and `altHref` are the `href` attributes of the
`link[title="pdf"]` and `link[rel="alternate"]` elements, with absent
element or attribute giving `""` (falsy, like the source's `||` chain). -/
structure ApiEntry where
  title : String
  id : String
  summary : String
  authorNames : List String
  pdfHref : String
  altHref : String
deriving DecidableEq, Repr

/-- A configured source (CONFIG.feeds element). -/
structure Feed where
  id : String
  name : String
  url : String
deriving DecidableEq, Repr

/-- CONFIG.feeds. -/
def configFeeds : List Feed :=
  [⟨"cs.LG", "Machine Learning", "https://export.arxiv.org/rss/cs.LG"⟩,
   ⟨"cs.CL", "NLP / LLMs", "https://export.arxiv.org/rss/cs.CL"⟩,
   ⟨"cs.AI", "General AI", "https://export.arxiv.org/rss/cs.AI"⟩,
   ⟨"cs.CV", "Computer Vision", "https://export.arxiv.org/rss/cs.CV"⟩,
   ⟨"cs.RO", "Robotics", "https://export.arxiv.org/rss/cs.RO"⟩,
   ⟨"cs.IR", "Information Retrieval", "https://export.arxiv.org/rss/cs.IR"⟩,
   ⟨"stat.ML", "Statistics ML", "https://export.arxiv.org/rss/stat.ML"⟩]

/-- CONFIG.corsProxies, in their static order. -/
def corsProxies : List String :=
  ["http://localhost:3001/?url=",
   "https://api.codetabs.com/v1/proxy?quest=",
   "https://corsproxy.io/?",
   "https://api.allorigins.win/raw?url="]

/-! ## Parsers (app.js `parseFeed`, `parseArxivAPIResponse`) -/

/-- The body of the `items.forEach` callback in `parseFeed`: returns the
pushed record, or `none` when the `if (title && link)` guard fails.
`now` stands for `new Date().toISOString()`. -/
def parseItem (now categoryId : String) (index : Nat) (item : FeedItem) :
    Option Paper :=
  let title := cleanText item.title
  let link := item.link
  let abstract := cleanText item.description
  let creator := jsOr item.creator item.creatorNS
  let id := extractArxivId link
  if title ≠ "" ∧ link ≠ "" then
    some { id := jsOr id (categoryId ++ "-" ++ toString index)
           title := stripCatTag title
           link := link
           abstract := abstract
           authors := cleanText creator
           category := categoryId
           fetchedAt := now }
  else none

def parseFeedAux (now categoryId : String) : Nat → List FeedItem → List Paper
  | _, [] => []
  | index, item :: rest =>
    match parseItem now categoryId index item with
    | some p => p :: parseFeedAux now categoryId (index + 1) rest
    | none => parseFeedAux now categoryId (index + 1) rest

/-- app.js `parseFeed`, with the DOM `item` extraction abstracted as the
input list. -/
def parseFeed (now : String) (items : List FeedItem) (categoryId : String) :
    List Paper :=
  parseFeedAux now categoryId 0 items

/-- The `const link = ...` local of `parseArxivAPIResponse`: pdf-titled
link, else alternate-relation link, else the entry id.  (The source
computes this value but does not use it in the pushed record.) -/
def apiPreferredLink (entry : ApiEntry) : String :=
  jsOr entry.pdfHref (jsOr entry.altHref entry.id)

/-- The body of the `entries.forEach` callback in `parseArxivAPIResponse`:
returns the pushed record, or `none` when the `if (title && arxivId)`
guard fails. -/
def parseApiEntry (now categoryId : String) (entry : ApiEntry) :
    Option Paper :=
  let title := cleanText entry.title
  let arxivId := jsOr (extractArxivId entry.id) (lastSeg entry.id)
  if title ≠ "" ∧ arxivId ≠ "" then
    some { id := arxivId
           title := title
           link := httpToHttps entry.id
           abstract := cleanText entry.summary
           authors := String.intercalate ", " entry.authorNames
           category := categoryId
           fetchedAt := now }
  else none

def parseApiEntries (now categoryId : String) : List ApiEntry → List Paper
  | [] => []
  | entry :: rest =>
    match parseApiEntry now categoryId entry with
    | some p => p :: parseApiEntries now categoryId rest
    | none => parseApiEntries now categoryId rest

/-- app.js `parseArxivAPIResponse`, with the DOM `entry` extraction
abstracted as the input list. -/
def parseArxivAPIResponse (now : String) (entries : List ApiEntry)
    (categoryId : String) : List Paper :=
  parseApiEntries now categoryId entries

/-! ## Transport chain (app.js `fetchFeed`, `fetchFromArxivAPI`)

The network is abstracted as an environment mapping a proxy candidate to
the outcome of the `fetch` through it: a rejected promise, or a settled
response with its `ok` flag and its body.  The body is given as the
DOM-extracted item/entry list the matching parser would receive. -/

/-- Outcome of one RSS `fetch` attempt through a proxy. -/
inductive ProxyOutcome where
  | reject
  | response (ok : Bool) (body : List FeedItem)
deriving DecidableEq, Repr

/-- Outcome of one API `fetch` attempt through a proxy. -/
inductive ApiOutcome where
  | reject
  | response (ok : Bool) (body : List ApiEntry)
deriving DecidableEq, Repr

/-- The `for (const proxy of CONFIG.corsProxies)` loop of `fetchFeed`:
a rejected request or a non-ok status falls through to the next
candidate, a parsed result with zero records likewise, and the first
parse with at least one record is returned. -/
def fetchFeedGo (now : String) (feed : Feed) (env : String → ProxyOutcome) :
    List String → List Paper
  | [] => []
  | proxy :: rest =>
    match env proxy with
    | .reject => fetchFeedGo now feed env rest
    | .response ok body =>
      if ok then
        let papers := parseFeed now body feed.id
        if papers.length > 0 then papers else fetchFeedGo now feed env rest
      else fetchFeedGo now feed env rest

/-- app.js `fetchFeed`: run the proxy chain over `CONFIG.corsProxies`;
when every candidate is exhausted the result is `[]` (the function is
total — the source catches every per-candidate exception). -/
def fetchFeed (now : String) (feed : Feed) (env : String → ProxyOutcome) :
    List Paper :=
  fetchFeedGo now feed env corsProxies

/-- The proxy loop of `fetchFromArxivAPI`, same chain discipline with the
Atom parser. -/
def fetchAPIGo (now category : String) (env : String → ApiOutcome) :
    List String → List Paper
  | [] => []
  | proxy :: rest =>
    match env proxy with
    | .reject => fetchAPIGo now category env rest
    | .response ok body =>
      if ok then
        let papers := parseArxivAPIResponse now body category
        if papers.length > 0 then papers else fetchAPIGo now category env rest
      else fetchAPIGo now category env rest

/-- app.js `fetchFromArxivAPI`.  `daysBack` only enters the query URL the
environment answers for, so it does not appear in the merge logic. -/
def fetchFromArxivAPI (now category : String) (daysBack : Nat)
    (env : String → ApiOutcome) : List Paper :=
  let _ := daysBack
  fetchAPIGo now category env corsProxies

/-! ## Aggregator (app.js `fetchAllFeeds`) -/

/-- `state.dateRange` values. -/
inductive DateRange where
  | today
  | week
  | month
deriving DecidableEq, Repr

/-- The slice of the global `state` object that `fetchAllFeeds` reads and
writes.  (`filteredPapers` and the UI fields belong to the rendering
layer and are out of scope.) -/
structure AppState where
  papers : List Paper
  activeCategories : List String
  dateRange : DateRange
  isLoading : Bool
  error : Option String
deriving DecidableEq, Repr

/-- Seen-set deduplication: the `for (const paper of allPapers)` loop with
its `seenIds` set. -/
def dedupAux (seen : List String) : List Paper → List Paper
  | [] => []
  | p :: rest =>
    if p.id ∈ seen then dedupAux seen rest
    else p :: dedupAux (p.id :: seen) rest

def dedupById (papers : List Paper) : List Paper := dedupAux [] papers

def weekendMsg : String :=
  "No new papers today. arXiv does not publish on weekends—try \"Past 7 Days\" instead!"

def unavailableMsg : String :=
  "No papers found. The feeds may be temporarily unavailable."

def rangeMsg : String :=
  "No papers found for this date range. Try different categories."

def failedMsg : String := "Failed to load papers. Please try again."

/-- The per-source results the cycle awaits: in snapshot mode one
`fetchFeed` per configured feed, in ranged mode one `fetchFromArxivAPI`
per active category (with `daysBack` 7 or 30).  The environments give
each source its own view of the proxy chain. -/
def aggResults (now : String) (st : AppState)
    (feedEnv : String → String → ProxyOutcome)
    (apiEnv : String → String → ApiOutcome) : List (List Paper) :=
  match st.dateRange with
  | .today => configFeeds.map (fun f => fetchFeed now f (feedEnv f.id))
  | .week =>
    st.activeCategories.map (fun c => fetchFromArxivAPI now c 7 (apiEnv c))
  | .month =>
    st.activeCategories.map (fun c => fetchFromArxivAPI now c 30 (apiEnv c))

/-- app.js `fetchAllFeeds` as a state transition.  `day` is
`new Date().getDay()` (0 = Sunday, 6 = Saturday); `orchThrows` is true
when the awaited `Promise.all` orchestration itself throws, sending
control to the `catch` block. -/
def fetchAllFeeds (now : String) (st : AppState) (day : Nat)
    (feedEnv : String → String → ProxyOutcome)
    (apiEnv : String → String → ApiOutcome) (orchThrows : Bool) : AppState :=
  if orchThrows then
    { st with isLoading := false, error := some failedMsg }
  else
    let results := aggResults now st feedEnv apiEnv
    let allPapers := results.flatten
    let uniquePapers := dedupById allPapers
    let err : Option String :=
      if uniquePapers.length = 0 then
        match st.dateRange with
        | .today =>
          if day = 0 ∨ day = 6 then some weekendMsg else some unavailableMsg
        | _ => some rangeMsg
      else none
    { st with papers := uniquePapers, isLoading := false, error := err }

/-! ## Bookmark store (app.js `loadBookmarks`, `isBookmarked`,
`toggleBookmark`) -/

/-- The persisted projection of a paper. -/
structure Bookmark where
  id : String
  title : String
  link : String
  category : String
  addedAt : String
deriving DecidableEq, Repr

/-- app.js `loadBookmarks`: `slot` is `localStorage.getItem(key)` (`none`
for an absent key), `decode` is `JSON.parse` with a thrown exception
embedded as `.error`.  The `try`/`catch` and the falsiness of `""` make
the operation total: every failure path yields `[]`. -/
def loadBookmarks (slot : Option String)
    (decode : String → Except String (List Bookmark)) : List Bookmark :=
  match slot with
  | none => []
  | some stored =>
    if stored = "" then []
    else
      match decode stored with
      | .ok bs => bs
      | .error _ => []

/-- app.js `isBookmarked`. -/
def isBookmarked (bookmarks : List Bookmark) (paperId : String) : Bool :=
  bookmarks.any (fun b => b.id = paperId)

/-- `findIndex` + `splice(index, 1)`: remove the first bookmark with the
given id. -/
def removeFirstById (paperId : String) : List Bookmark → List Bookmark
  | [] => []
  | b :: rest =>
    if b.id = paperId then rest else b :: removeFirstById paperId rest

/-- app.js `toggleBookmark` restricted to its effect on
`state.bookmarks` (the save/render calls are side effects on other
state).  `now` is `new Date().toISOString()`. -/
def toggleBookmark (bookmarks : List Bookmark) (paper : Paper)
    (now : String) : List Bookmark :=
  if isBookmarked bookmarks paper.id then removeFirstById paper.id bookmarks
  else
    bookmarks ++
      [{ id := paper.id, title := paper.title, link := paper.link,
         category := paper.category, addedAt := now }]

/-! ## Helper lemmas -/

theorem dedupAux_id_not_mem_seen {papers : List Paper} :
    ∀ {seen : List String}, ∀ p ∈ dedupAux seen papers, p.id ∉ seen := by
  induction papers with
  | nil => intro seen p hp; simp [dedupAux] at hp
  | cons q rest ih =>
    intro seen p hp
    simp only [dedupAux] at hp
    by_cases hq : q.id ∈ seen
    · rw [if_pos hq] at hp
      exact ih p hp
    · rw [if_neg hq] at hp
      rcases List.mem_cons.mp hp with rfl | hp
      · exact hq
      · have h2 := ih p hp
        exact fun hmem => h2 (List.mem_cons_of_mem _ hmem)

theorem dedupAux_pairwise (papers : List Paper) :
    ∀ seen : List String,
      (dedupAux seen papers).Pairwise (fun a b => a.id ≠ b.id) := by
  induction papers with
  | nil => intro seen; simp [dedupAux]
  | cons q rest ih =>
    intro seen
    simp only [dedupAux]
    by_cases hq : q.id ∈ seen
    · rw [if_pos hq]; exact ih seen
    · rw [if_neg hq]
      refine List.Pairwise.cons ?_ (ih _)
      intro p hp hqp
      have h2 := dedupAux_id_not_mem_seen p hp
      exact h2 (hqp ▸ List.mem_cons_self _ _)

theorem dedupAux_find? (x : String) (papers : List Paper) :
    ∀ seen : List String, x ∉ seen →
      (dedupAux seen papers).find? (fun p => p.id == x) =
        papers.find? (fun p => p.id == x) := by
  induction papers with
  | nil => intro seen _; rfl
  | cons q rest ih =>
    intro seen hx
    simp only [dedupAux]
    by_cases hq : q.id ∈ seen
    · rw [if_pos hq]
      have hne : (q.id == x) = false := by
        rw [beq_eq_false_iff_ne]
        intro h
        exact hx (h ▸ hq)
      rw [ih seen hx, List.find?_cons_of_neg _ (by simp [hne])]
    · rw [if_neg hq]
      by_cases hqx : q.id = x
      · rw [List.find?_cons_of_pos _ (by simp [hqx]),
          List.find?_cons_of_pos _ (by simp [hqx])]
      · rw [List.find?_cons_of_neg _ (by simp [hqx]),
          List.find?_cons_of_neg _ (by simp [hqx])]
        refine ih (q.id :: seen) ?_
        intro hmem
        rcases List.mem_cons.mp hmem with h | h
        · exact hqx h.symm
        · exact hx h

theorem dedupAux_subset {papers : List Paper} :
    ∀ {seen : List String}, ∀ p ∈ dedupAux seen papers, p ∈ papers := by
  induction papers with
  | nil => intro seen p hp; simp [dedupAux] at hp
  | cons q rest ih =>
    intro seen p hp
    simp only [dedupAux] at hp
    by_cases hq : q.id ∈ seen
    · rw [if_pos hq] at hp
      exact List.mem_cons_of_mem _ (ih p hp)
    · rw [if_neg hq] at hp
      rcases List.mem_cons.mp hp with rfl | hp
      · exact List.mem_cons_self _ _
      · exact List.mem_cons_of_mem _ (ih p hp)

theorem fetchAllFeeds_ok_papers (now : String) (st : AppState) (day : Nat)
    (feedEnv : String → String → ProxyOutcome)
    (apiEnv : String → String → ApiOutcome) :
    (fetchAllFeeds now st day feedEnv apiEnv false).papers =
      dedupById ((aggResults now st feedEnv apiEnv).flatten) := rfl

theorem fetchAllFeeds_ok_error (now : String) (st : AppState) (day : Nat)
    (feedEnv : String → String → ProxyOutcome)
    (apiEnv : String → String → ApiOutcome) :
    (fetchAllFeeds now st day feedEnv apiEnv false).error =
      (if (dedupById ((aggResults now st feedEnv apiEnv).flatten)).length = 0
       then
         match st.dateRange with
         | .today =>
           if day = 0 ∨ day = 6 then some weekendMsg else some unavailableMsg
         | _ => some rangeMsg
       else none) := rfl

theorem parseItem_eq_some {now categoryId : String} {index : Nat}
    {item : FeedItem} {p : Paper}
    (h : parseItem now categoryId index item = some p) :
    cleanText item.title ≠ "" ∧ item.link ≠ "" ∧ p.link = item.link := by
  simp only [parseItem] at h
  split at h
  · next hc =>
    injection h with h
    subst h
    exact ⟨hc.1, hc.2, rfl⟩
  · exact absurd h (by simp)

theorem parseApiEntry_eq_some {now categoryId : String} {entry : ApiEntry}
    {p : Paper} (h : parseApiEntry now categoryId entry = some p) :
    cleanText entry.title ≠ "" ∧
    jsOr (extractArxivId entry.id) (lastSeg entry.id) ≠ "" ∧
    p.title = cleanText entry.title ∧ p.link = httpToHttps entry.id := by
  simp only [parseApiEntry] at h
  split at h
  · next hc =>
    injection h with h
    subst h
    exact ⟨hc.1, hc.2, rfl, rfl⟩
  · exact absurd h (by simp)

theorem mem_parseFeedAux {now categoryId : String} {p : Paper} :
    ∀ {index : Nat} {items : List FeedItem},
      p ∈ parseFeedAux now categoryId index items →
      ∃ item ∈ items, ∃ k, parseItem now categoryId k item = some p := by
  intro index items
  induction items generalizing index with
  | nil => intro hp; simp [parseFeedAux] at hp
  | cons it rest ih =>
    intro hp
    simp only [parseFeedAux] at hp
    cases hpi : parseItem now categoryId index it with
    | some q =>
      rw [hpi] at hp
      rcases List.mem_cons.mp hp with rfl | hp
      · exact ⟨it, List.mem_cons_self _ _, index, hpi⟩
      · obtain ⟨i, hi, k, hk⟩ := ih hp
        exact ⟨i, List.mem_cons_of_mem _ hi, k, hk⟩
    | none =>
      rw [hpi] at hp
      obtain ⟨i, hi, k, hk⟩ := ih hp
      exact ⟨i, List.mem_cons_of_mem _ hi, k, hk⟩

theorem mem_parseApiEntries {now categoryId : String} {p : Paper} :
    ∀ {entries : List ApiEntry},
      p ∈ parseApiEntries now categoryId entries →
      ∃ entry ∈ entries, parseApiEntry now categoryId entry = some p := by
  intro entries
  induction entries with
  | nil => intro hp; simp [parseApiEntries] at hp
  | cons e rest ih =>
    intro hp
    simp only [parseApiEntries] at hp
    cases hpe : parseApiEntry now categoryId e with
    | some q =>
      rw [hpe] at hp
      rcases List.mem_cons.mp hp with rfl | hp
      · exact ⟨e, List.mem_cons_self _ _, hpe⟩
      · obtain ⟨i, hi, hk⟩ := ih hp
        exact ⟨i, List.mem_cons_of_mem _ hi, hk⟩
    | none =>
      rw [hpe] at hp
      obtain ⟨i, hi, hk⟩ := ih hp
      exact ⟨i, List.mem_cons_of_mem _ hi, hk⟩

theorem httpToHttpsAux_ne_nil (l : List Char) (h : l ≠ []) :
    httpToHttpsAux l ≠ [] := by
  rw [httpToHttpsAux.eq_def]
  split
  · simp
  · simp
  · exact absurd rfl h

theorem httpToHttps_ne_empty (s : String) (h : s ≠ "") :
    httpToHttps s ≠ "" := by
  intro h0
  apply httpToHttpsAux_ne_nil s.data
  · intro hd
    apply h
    exact String.ext hd
  · have := congrArg String.data h0
    simpa [httpToHttps, List.asString] using this

/-! ## Claim theorems -/

/-- C1: in every aggregation cycle (snapshot or ranged-query mode) the
merged paper collection holds no two records with the same `id`; for any
id the kept record is the first one occurring in the concatenation of the
per-source results, so on a cross-source duplicate the earlier source's
version wins and later ones are dropped. -/
theorem c1_dedup_first_seen_wins (now : String) (st : AppState) (day : Nat)
    (feedEnv : String → String → ProxyOutcome)
    (apiEnv : String → String → ApiOutcome) :
    (fetchAllFeeds now st day feedEnv apiEnv false).papers.Pairwise
      (fun a b => a.id ≠ b.id) ∧
    (∀ x : String,
      (fetchAllFeeds now st day feedEnv apiEnv false).papers.find?
          (fun p => p.id == x) =
        ((aggResults now st feedEnv apiEnv).flatten).find?
          (fun p => p.id == x)) ∧
    (∀ p, p ∈ (fetchAllFeeds now st day feedEnv apiEnv false).papers →
      p ∈ (aggResults now st feedEnv apiEnv).flatten) := by
  rw [fetchAllFeeds_ok_papers]
  refine ⟨dedupAux_pairwise _ [], ?_, ?_⟩
  · intro x
    exact dedupAux_find? x _ [] (by simp)
  · intro p hp
    exact dedupAux_subset p hp

/-- Witness for C1 at a concrete snapshot cycle in which two sources
each return a record whose extracted identifier is `2401.00001`: the
merged collection's record for that id is the first source's version,
and that version indeed occurs in the concatenated per-source results. -/
theorem c1_dedup_first_seen_wins_witness :
    (fetchAllFeeds "t0" ⟨[], [], DateRange.today, true, none⟩ 3
        (fun fid _ =>
          if fid = "cs.LG" then
            ProxyOutcome.response true
              [⟨"A", "http://arxiv.org/abs/2401.00001", "", "", ""⟩]
          else if fid = "cs.CL" then
            ProxyOutcome.response true
              [⟨"B", "http://arxiv.org/abs/2401.00001", "", "", ""⟩]
          else ProxyOutcome.reject)
        (fun _ _ => ApiOutcome.reject) false).papers.find?
        (fun p => p.id == "2401.00001") =
      ((aggResults "t0" ⟨[], [], DateRange.today, true, none⟩
          (fun fid _ =>
            if fid = "cs.LG" then
              ProxyOutcome.response true
                [⟨"A", "http://arxiv.org/abs/2401.00001", "", "", ""⟩]
            else if fid = "cs.CL" then
              ProxyOutcome.response true
                [⟨"B", "http://arxiv.org/abs/2401.00001", "", "", ""⟩]
            else ProxyOutcome.reject)
          (fun _ _ => ApiOutcome.reject)).flatten).find?
        (fun p => p.id == "2401.00001") ∧
    (⟨"2401.00001", "A", "http://arxiv.org/abs/2401.00001", "", "",
       "cs.LG", "t0"⟩ : Paper) ∈
      (aggResults "t0" ⟨[], [], DateRange.today, true, none⟩
          (fun fid _ =>
            if fid = "cs.LG" then
              ProxyOutcome.response true
                [⟨"A", "http://arxiv.org/abs/2401.00001", "", "", ""⟩]
            else if fid = "cs.CL" then
              ProxyOutcome.response true
                [⟨"B", "http://arxiv.org/abs/2401.00001", "", "", ""⟩]
            else ProxyOutcome.reject)
          (fun _ _ => ApiOutcome.reject)).flatten :=
  ⟨(c1_dedup_first_seen_wins "t0" ⟨[], [], DateRange.today, true, none⟩ 3
      (fun fid _ =>
        if fid = "cs.LG" then
          ProxyOutcome.response true
            [⟨"A", "http://arxiv.org/abs/2401.00001", "", "", ""⟩]
        else if fid = "cs.CL" then
          ProxyOutcome.response true
            [⟨"B", "http://arxiv.org/abs/2401.00001", "", "", ""⟩]
        else ProxyOutcome.reject)
      (fun _ _ => ApiOutcome.reject)).2.1 "2401.00001",
   (c1_dedup_first_seen_wins "t0" ⟨[], [], DateRange.today, true, none⟩ 3
      (fun fid _ =>
        if fid = "cs.LG" then
          ProxyOutcome.response true
            [⟨"A", "http://arxiv.org/abs/2401.00001", "", "", ""⟩]
        else if fid = "cs.CL" then
          ProxyOutcome.response true
            [⟨"B", "http://arxiv.org/abs/2401.00001", "", "", ""⟩]
        else ProxyOutcome.reject)
      (fun _ _ => ApiOutcome.reject)).2.2
     ⟨"2401.00001", "A", "http://arxiv.org/abs/2401.00001", "", "",
      "cs.LG", "t0"⟩ (by decide)⟩

/-- C4: when the concurrent-fetch orchestration of a cycle throws, the
cycle reports the generic failure message and the paper collection from
before the cycle is left unchanged. -/
theorem c4_orchestration_throw_preserves_papers (now : String)
    (st : AppState) (day : Nat)
    (feedEnv : String → String → ProxyOutcome)
    (apiEnv : String → String → ApiOutcome) :
    (fetchAllFeeds now st day feedEnv apiEnv true).papers = st.papers ∧
    (fetchAllFeeds now st day feedEnv apiEnv true).error = some failedMsg ∧
    (fetchAllFeeds now st day feedEnv apiEnv true).isLoading = false :=
  ⟨rfl, rfl, rfl⟩

/-- C7: with zero merged records the surfaced message depends only on
(mode, day-of-week, count): snapshot mode on Saturday or Sunday gives the
weekend message, snapshot mode on other days the generic-unavailability
message, and ranged-query mode the try-different-categories message. -/
theorem c7_empty_result_message (now : String) (st : AppState) (day : Nat)
    (feedEnv : String → String → ProxyOutcome)
    (apiEnv : String → String → ApiOutcome) :
    (st.dateRange = .today →
      (fetchAllFeeds now st day feedEnv apiEnv false).papers = [] →
      (day = 0 ∨ day = 6) →
      (fetchAllFeeds now st day feedEnv apiEnv false).error =
        some weekendMsg) ∧
    (st.dateRange = .today →
      (fetchAllFeeds now st day feedEnv apiEnv false).papers = [] →
      ¬(day = 0 ∨ day = 6) →
      (fetchAllFeeds now st day feedEnv apiEnv false).error =
        some unavailableMsg) ∧
    (st.dateRange ≠ .today →
      (fetchAllFeeds now st day feedEnv apiEnv false).papers = [] →
      (fetchAllFeeds now st day feedEnv apiEnv false).error =
        some rangeMsg) := by
  have hp := fetchAllFeeds_ok_papers now st day feedEnv apiEnv
  have he := fetchAllFeeds_ok_error now st day feedEnv apiEnv
  refine ⟨?_, ?_, ?_⟩
  · intro hmode hempty hday
    rw [hp] at hempty
    rw [he, hempty, hmode]
    simp [hday]
  · intro hmode hempty hday
    rw [hp] at hempty
    rw [he, hempty, hmode]
    simp [hday]
  · intro hmode hempty
    rw [hp] at hempty
    rw [he, hempty]
    cases hdr : st.dateRange
    · exact absurd hdr hmode
    · simp
    · simp

/-- Witness for C7 at concrete inputs: a Saturday snapshot cycle whose
sources all fail yields the weekend message, and a ranged cycle over one
category whose proxies all fail yields the date-range message. -/
theorem c7_empty_result_message_witness :
    (fetchAllFeeds "t" ⟨[], [], DateRange.today, true, none⟩ 6
        (fun _ _ => ProxyOutcome.reject) (fun _ _ => ApiOutcome.reject)
        false).error = some weekendMsg ∧
    (fetchAllFeeds "t" ⟨[], ["cs.LG"], DateRange.week, true, none⟩ 3
        (fun _ _ => ProxyOutcome.reject) (fun _ _ => ApiOutcome.reject)
        false).error = some rangeMsg :=
  ⟨(c7_empty_result_message "t" ⟨[], [], DateRange.today, true, none⟩ 6
      (fun _ _ => ProxyOutcome.reject) (fun _ _ => ApiOutcome.reject)).1
      rfl rfl (Or.inr rfl),
   (c7_empty_result_message "t" ⟨[], ["cs.LG"], DateRange.week, true, none⟩ 3
      (fun _ _ => ProxyOutcome.reject) (fun _ _ => ApiOutcome.reject)).2.2
      (by simp) rfl⟩

/-- C10: a ranged-query cycle with no active categories is independent of
both transport environments (no fetch request is issued), replaces the
paper collection with the empty collection, and surfaces the generic
no-papers-for-this-date-range message. -/
theorem c10_ranged_no_categories (now : String) (st : AppState) (day : Nat)
    (feedEnv feedEnv' : String → String → ProxyOutcome)
    (apiEnv apiEnv' : String → String → ApiOutcome)
    (hmode : st.dateRange ≠ .today) (hcats : st.activeCategories = []) :
    fetchAllFeeds now st day feedEnv apiEnv false =
      fetchAllFeeds now st day feedEnv' apiEnv' false ∧
    (fetchAllFeeds now st day feedEnv apiEnv false).papers = [] ∧
    (fetchAllFeeds now st day feedEnv apiEnv false).error = some rangeMsg := by
  have hagg : ∀ (fE : String → String → ProxyOutcome)
      (aE : String → String → ApiOutcome),
      aggResults now st fE aE = [] := by
    intro fE aE
    unfold aggResults
    cases hdr : st.dateRange
    · exact absurd hdr hmode
    · simp [hcats]
    · simp [hcats]
  have hfull : ∀ (fE : String → String → ProxyOutcome)
      (aE : String → String → ApiOutcome),
      fetchAllFeeds now st day fE aE false =
        { st with papers := [], isLoading := false,
                  error := some rangeMsg } := by
    intro fE aE
    unfold fetchAllFeeds
    rw [if_neg (by simp)]
    rw [hagg fE aE]
    cases hdr : st.dateRange
    · exact absurd hdr hmode
    · simp [dedupById, dedupAux]
    · simp [dedupById, dedupAux]
  refine ⟨?_, ?_, ?_⟩
  · rw [hfull feedEnv apiEnv, hfull feedEnv' apiEnv']
  · rw [hfull feedEnv apiEnv]
  · rw [hfull feedEnv apiEnv]

/-- Witness for C10: a concrete week-mode state with no active categories
yields the empty collection and the date-range message, independently of
two distinct environments. -/
theorem c10_ranged_no_categories_witness :
    fetchAllFeeds "t" ⟨[], [], DateRange.week, true, none⟩ 3
        (fun _ _ => ProxyOutcome.reject) (fun _ _ => ApiOutcome.reject)
        false =
      fetchAllFeeds "t" ⟨[], [], DateRange.week, true, none⟩ 3
        (fun _ _ => ProxyOutcome.response true [])
        (fun _ _ => ApiOutcome.response true []) false ∧
    (fetchAllFeeds "t" ⟨[], [], DateRange.week, true, none⟩ 3
        (fun _ _ => ProxyOutcome.reject) (fun _ _ => ApiOutcome.reject)
        false).papers = [] ∧
    (fetchAllFeeds "t" ⟨[], [], DateRange.week, true, none⟩ 3
        (fun _ _ => ProxyOutcome.reject) (fun _ _ => ApiOutcome.reject)
        false).error = some rangeMsg :=
  c10_ranged_no_categories "t" ⟨[], [], DateRange.week, true, none⟩ 3
    (fun _ _ => ProxyOutcome.reject) (fun _ _ => ProxyOutcome.response true [])
    (fun _ _ => ApiOutcome.reject) (fun _ _ => ApiOutcome.response true [])
    (by simp) rfl

/-- A soft failure of one transport candidate: the request rejects, the
response status is not ok, or the body parses to zero records. -/
def proxySoftFails (now : String) (feed : Feed)
    (env : String → ProxyOutcome) (proxy : String) : Prop :=
  env proxy = .reject ∨
  (∃ body, env proxy = .response false body) ∨
  (∃ body, env proxy = .response true body ∧ parseFeed now body feed.id = [])

theorem fetchFeedGo_soft_skip {now : String} {feed : Feed}
    {env : String → ProxyOutcome} {proxy : String} (rest : List String)
    (h : proxySoftFails now feed env proxy) :
    fetchFeedGo now feed env (proxy :: rest) = fetchFeedGo now feed env rest := by
  rcases h with h | ⟨body, h⟩ | ⟨body, h, hparse⟩
  · simp [fetchFeedGo, h]
  · simp [fetchFeedGo, h]
  · simp [fetchFeedGo, h, hparse]

theorem fetchFeedGo_all_fail {now : String} {feed : Feed}
    {env : String → ProxyOutcome} :
    ∀ proxies : List String,
      (∀ proxy ∈ proxies, proxySoftFails now feed env proxy) →
      fetchFeedGo now feed env proxies = [] := by
  intro proxies
  induction proxies with
  | nil => intro _; rfl
  | cons p rest ih =>
    intro h
    rw [fetchFeedGo_soft_skip rest (h p (List.mem_cons_self _ _))]
    exact ih fun q hq => h q (List.mem_cons_of_mem _ hq)

/-- C3: the transport chain walks the candidate proxies in their static
order; a rejected request, a non-ok status, or a body parsing to zero
records is a soft failure that moves straight to the next candidate, the
first candidate whose body parses to at least one record is returned
immediately, and when every configured candidate fails the chain returns
the empty result (the embedding is a total function, so no exception can
escape). -/
theorem c3_transport_chain (now : String) (feed : Feed)
    (env : String → ProxyOutcome) :
    ((∀ proxy ∈ corsProxies, proxySoftFails now feed env proxy) →
      fetchFeed now feed env = []) ∧
    (∀ proxy rest, proxySoftFails now feed env proxy →
      fetchFeedGo now feed env (proxy :: rest) =
        fetchFeedGo now feed env rest) ∧
    (∀ proxy rest body, env proxy = .response true body →
      parseFeed now body feed.id ≠ [] →
      fetchFeedGo now feed env (proxy :: rest) = parseFeed now body feed.id) := by
  refine ⟨?_, ?_, ?_⟩
  · intro h
    exact fetchFeedGo_all_fail corsProxies h
  · intro proxy rest h
    exact fetchFeedGo_soft_skip rest h
  · intro proxy rest body h hne
    have hlen : 0 < (parseFeed now body feed.id).length :=
      List.length_pos.mpr hne
    simp [fetchFeedGo, h, hlen]

/-- Witness for C3: with every proxy rejecting, the chain for the first
configured feed returns the empty result. -/
theorem c3_transport_chain_witness :
    fetchFeed "t"
      ⟨"cs.LG", "Machine Learning", "https://export.arxiv.org/rss/cs.LG"⟩
      (fun _ => ProxyOutcome.reject) = [] :=
  (c3_transport_chain "t"
      ⟨"cs.LG", "Machine Learning", "https://export.arxiv.org/rss/cs.LG"⟩
      (fun _ => ProxyOutcome.reject)).1
    (fun _ _ => Or.inl rfl)

/-- C2 counterexample: the syndication parser checks the title before
stripping the leading parenthesized category tag, so an item titled
exactly `(cs.LG)` passes the guard and is pushed with an empty title. -/
theorem c2_counterexample :
    ∃ p ∈ parseFeed "t0"
        [⟨"(cs.LG)", "http://arxiv.org/abs/2401.00001", "", "", ""⟩]
        "cs.LG",
      p.title = "" := by decide

/-- C2 amended: no parser output ever has an empty `link`, and the
structured-query parser also never outputs an empty `title`; only the
syndication parser can emit an empty title, when the category-tag strip
empties a title that was nonempty at guard time. -/
theorem c2_amended_no_empty_link (now : String) (items : List FeedItem)
    (entries : List ApiEntry) (categoryId : String) :
    (∀ p ∈ parseFeed now items categoryId, p.link ≠ "") ∧
    (∀ p ∈ parseArxivAPIResponse now entries categoryId,
        p.title ≠ "" ∧ p.link ≠ "") := by
  constructor
  · intro p hp
    obtain ⟨item, _, k, hsome⟩ := mem_parseFeedAux hp
    obtain ⟨_, hlink, hplink⟩ := parseItem_eq_some hsome
    rw [hplink]
    exact hlink
  · intro p hp
    obtain ⟨entry, _, hsome⟩ := mem_parseApiEntries hp
    obtain ⟨htitle, hid, hpt, hpl⟩ := parseApiEntry_eq_some hsome
    refine ⟨?_, ?_⟩
    · rw [hpt]
      exact htitle
    · rw [hpl]
      refine httpToHttps_ne_empty _ ?_
      intro h0
      rw [h0] at hid
      exact hid (by decide)

/-- Witness for the amended C2 at a concrete item: the parsed record's
link is nonempty. -/
theorem c2_amended_no_empty_link_witness :
    (⟨"2401.00002", "T", "https://arxiv.org/abs/2401.00002", "", "",
       "cs.LG", "t0"⟩ : Paper).link ≠ "" :=
  (c2_amended_no_empty_link "t0"
      [⟨"T", "https://arxiv.org/abs/2401.00002", "", "", ""⟩] [] "cs.LG").1
    _ (by decide)

/-- C5 counterexample: the syndication parser copies the item link
verbatim, so a feed item with an `http://` link yields a record still
carrying the insecure link. -/
theorem c5_counterexample :
    ∃ p ∈ parseFeed "t0"
        [⟨"Some Paper", "http://arxiv.org/abs/2401.00003", "", "", ""⟩]
        "cs.LG",
      p.link = "http://arxiv.org/abs/2401.00003" := by decide

/-- C5 amended: every record of the structured-query parser carries the
entry id URL with its first `http://` occurrence upgraded to `https://`,
while every record of the syndication parser carries the feed item's
link unchanged (no scheme normalization there). -/
theorem c5_amended_link_provenance (now : String) (items : List FeedItem)
    (entries : List ApiEntry) (categoryId : String) :
    (∀ p ∈ parseFeed now items categoryId,
        ∃ item ∈ items, p.link = item.link) ∧
    (∀ p ∈ parseArxivAPIResponse now entries categoryId,
        ∃ entry ∈ entries, p.link = httpToHttps entry.id) := by
  constructor
  · intro p hp
    obtain ⟨item, hmem, k, hsome⟩ := mem_parseFeedAux hp
    obtain ⟨_, _, hplink⟩ := parseItem_eq_some hsome
    exact ⟨item, hmem, hplink⟩
  · intro p hp
    obtain ⟨entry, hmem, hsome⟩ := mem_parseApiEntries hp
    obtain ⟨_, _, _, hpl⟩ := parseApiEntry_eq_some hsome
    exact ⟨entry, hmem, hpl⟩

/-- Witness for the amended C5 at a concrete entry whose id uses the
insecure scheme: the record link is its https upgrade. -/
theorem c5_amended_link_provenance_witness :
    ∃ entry ∈
        [(⟨"T", "http://arxiv.org/abs/2401.00004", "S", ["A"], "", ""⟩ :
          ApiEntry)],
      (⟨"2401.00004", "T", "https://arxiv.org/abs/2401.00004", "S", "A",
         "cs.LG", "t0"⟩ : Paper).link = httpToHttps entry.id :=
  (c5_amended_link_provenance "t0" []
      [⟨"T", "http://arxiv.org/abs/2401.00004", "S", ["A"], "", ""⟩]
      "cs.LG").2
    _ (by decide)

/-- C6: evaluating the structured-query parser at an entry carrying a
pdf-tagged link shows that the pushed record's link is the https-upgraded
entry id, while the pdf/alternate/id preference is computed into an
unused local — the record never receives the preferred link. -/
theorem c6_preferred_link_unused :
    parseArxivAPIResponse "t0"
        [⟨"T", "http://arxiv.org/abs/2401.00005v1", "S", ["A"],
          "https://arxiv.org/pdf/2401.00005v1", ""⟩] "cs.LG" =
      [⟨"2401.00005v1", "T", "https://arxiv.org/abs/2401.00005v1", "S",
        "A", "cs.LG", "t0"⟩] ∧
    apiPreferredLink
        ⟨"T", "http://arxiv.org/abs/2401.00005v1", "S", ["A"],
         "https://arxiv.org/pdf/2401.00005v1", ""⟩ =
      "https://arxiv.org/pdf/2401.00005v1" ∧
    (⟨"2401.00005v1", "T", "https://arxiv.org/abs/2401.00005v1", "S",
       "A", "cs.LG", "t0"⟩ : Paper).link ≠
      apiPreferredLink
        ⟨"T", "http://arxiv.org/abs/2401.00005v1", "S", ["A"],
         "https://arxiv.org/pdf/2401.00005v1", ""⟩ := by decide

/-- C8: the bookmark load is total and every failure path defaults to the
empty set — an absent slot loads as `[]`, and a slot whose content the
decoder rejects (corrupted persisted data) also loads as `[]`. -/
theorem c8_load_bookmarks_defaults_empty
    (decode : String → Except String (List Bookmark)) :
    loadBookmarks none decode = [] ∧
    (∀ s e, decode s = .error e → loadBookmarks (some s) decode = []) := by
  refine ⟨rfl, ?_⟩
  intro s e h
  by_cases hs : s = ""
  · simp [loadBookmarks, hs]
  · simp [loadBookmarks, hs, h]

/-- Witness for C8: a decoder that always throws loads a corrupted slot
as the empty set. -/
theorem c8_load_bookmarks_defaults_empty_witness :
    loadBookmarks (some "corrupted")
      (fun _ => Except.error "SyntaxError") = [] :=
  (c8_load_bookmarks_defaults_empty
      (fun _ => Except.error "SyntaxError")).2
    "corrupted" "SyntaxError" rfl

theorem removeFirstById_length {paperId : String} :
    ∀ {bookmarks : List Bookmark},
      isBookmarked bookmarks paperId = true →
      (removeFirstById paperId bookmarks).length + 1 = bookmarks.length := by
  intro bookmarks
  induction bookmarks with
  | nil => intro h; simp [isBookmarked] at h
  | cons b rest ih =>
    intro h
    simp only [removeFirstById]
    by_cases hb : b.id = paperId
    · rw [if_pos hb]
      rfl
    · rw [if_neg hb]
      have hrest : isBookmarked rest paperId = true := by
        simp only [isBookmarked, List.any_cons] at h
        rcases Bool.or_eq_true_iff.mp h with h | h
        · exact absurd (of_decide_eq_true h) hb
        · exact h
      simp only [List.length_cons]
      rw [← ih hrest]

theorem removeFirstById_countP {paperId : String} :
    ∀ {bookmarks : List Bookmark},
      isBookmarked bookmarks paperId = true →
      (removeFirstById paperId bookmarks).countP
          (fun b => b.id == paperId) + 1 =
        bookmarks.countP (fun b => b.id == paperId) := by
  intro bookmarks
  induction bookmarks with
  | nil => intro h; simp [isBookmarked] at h
  | cons b rest ih =>
    intro h
    simp only [removeFirstById]
    by_cases hb : b.id = paperId
    · rw [if_pos hb]
      rw [List.countP_cons_of_pos _ _ (by simp [hb])]
    · rw [if_neg hb]
      have hrest : isBookmarked rest paperId = true := by
        simp only [isBookmarked, List.any_cons] at h
        rcases Bool.or_eq_true_iff.mp h with h | h
        · exact absurd (of_decide_eq_true h) hb
        · exact h
      rw [List.countP_cons_of_neg _ _ (by simp [hb]),
        List.countP_cons_of_neg _ _ (by simp [hb])]
      exact ih hrest

/-- C9 counterexample: invoking the bookmark toggle for a paper whose id
is already bookmarked does not leave the bookmark set unchanged — the
bookmark is removed. -/
theorem c9_counterexample :
    isBookmarked
        [⟨"2401.00001", "A Paper", "https://arxiv.org/abs/2401.00001",
          "cs.LG", "t0"⟩]
        (⟨"2401.00001", "A Paper", "https://arxiv.org/abs/2401.00001",
          "", "", "cs.LG", "t0"⟩ : Paper).id = true ∧
    toggleBookmark
        [⟨"2401.00001", "A Paper", "https://arxiv.org/abs/2401.00001",
          "cs.LG", "t0"⟩]
        ⟨"2401.00001", "A Paper", "https://arxiv.org/abs/2401.00001",
         "", "", "cs.LG", "t0"⟩ "t1" ≠
      [⟨"2401.00001", "A Paper", "https://arxiv.org/abs/2401.00001",
        "cs.LG", "t0"⟩] := by decide

/-- C9 amended: when the paper's id is already bookmarked, the toggle
operation removes the first bookmark with that id — the set shrinks by
one and its count of that id drops by one (a removal, not a no-op, and
never a duplicate insertion). -/
theorem c9_toggle_removes_existing (bookmarks : List Bookmark)
    (paper : Paper) (now : String)
    (h : isBookmarked bookmarks paper.id = true) :
    toggleBookmark bookmarks paper now =
      removeFirstById paper.id bookmarks ∧
    (toggleBookmark bookmarks paper now).length + 1 = bookmarks.length ∧
    (toggleBookmark bookmarks paper now).countP
        (fun b => b.id == paper.id) + 1 =
      bookmarks.countP (fun b => b.id == paper.id) := by
  have htog : toggleBookmark bookmarks paper now =
      removeFirstById paper.id bookmarks := by
    simp only [toggleBookmark]
    rw [if_pos h]
  refine ⟨htog, ?_, ?_⟩
  · rw [htog]
    exact removeFirstById_length h
  · rw [htog]
    exact removeFirstById_countP h

/-- Witness for the amended C9: toggling the single bookmarked paper
empties the set. -/
theorem c9_toggle_removes_existing_witness :
    toggleBookmark
        [⟨"2401.00006", "B Paper", "https://arxiv.org/abs/2401.00006",
          "cs.CL", "t0"⟩]
        ⟨"2401.00006", "B Paper", "https://arxiv.org/abs/2401.00006",
         "", "", "cs.CL", "t0"⟩ "t1" =
      removeFirstById
        (⟨"2401.00006", "B Paper", "https://arxiv.org/abs/2401.00006",
          "", "", "cs.CL", "t0"⟩ : Paper).id
        [⟨"2401.00006", "B Paper", "https://arxiv.org/abs/2401.00006",
          "cs.CL", "t0"⟩] ∧
    (toggleBookmark
        [⟨"2401.00006", "B Paper", "https://arxiv.org/abs/2401.00006",
          "cs.CL", "t0"⟩]
        ⟨"2401.00006", "B Paper", "https://arxiv.org/abs/2401.00006",
         "", "", "cs.CL", "t0"⟩ "t1").length + 1 = 1 ∧
    (toggleBookmark
        [⟨"2401.00006", "B Paper", "https://arxiv.org/abs/2401.00006",
          "cs.CL", "t0"⟩]
        ⟨"2401.00006", "B Paper", "https://arxiv.org/abs/2401.00006",
         "", "", "cs.CL", "t0"⟩ "t1").countP
        (fun b => b.id ==
          (⟨"2401.00006", "B Paper", "https://arxiv.org/abs/2401.00006",
            "", "", "cs.CL", "t0"⟩ : Paper).id) + 1 = 1 :=
  c9_toggle_removes_existing
    [⟨"2401.00006", "B Paper", "https://arxiv.org/abs/2401.00006",
      "cs.CL", "t0"⟩]
    ⟨"2401.00006", "B Paper", "https://arxiv.org/abs/2401.00006",
     "", "", "cs.CL", "t0"⟩ "t1" (by decide)

end RssAi
